import Mathlib

/-!
Verification of the vocal-remover web service (`app.py`).

The service is a thin orchestration layer: it accepts an uploaded audio
file, shells out to an external separation tool (demucs) and an external
mixing tool (ffmpeg), and serves the resulting files.  We embed the
handlers shallowly:

* the filesystem is an explicit state (`Fs`): an association list from
  paths (component lists, relative to the service base directory) to file
  contents, plus the list of existing directories;
* the behaviour of the two external subprocesses is an oracle environment
  (`UploadEnv`, `HealthEnv`): exit codes, captured output, and the set of
  filesystem writes the separation tool performs under its `-o` directory;
* each Flask handler becomes a pure function from environment and
  filesystem state to the new state and an HTTP response.
-/

/-- A filesystem path, as a list of components relative to `BASE_DIR`
(so `uploads/x.mp3` is `["uploads", "x.mp3"]`). -/
abbrev FPath := List String

/-- File contents, as a byte list. -/
abbrev Bytes := List Nat

/-- A JSON value as produced by the service (`jsonify`): only strings and
booleans occur in its responses. -/
inductive Json where
  | str (s : String) : Json
  | bool (b : Bool) : Json
deriving DecidableEq, Repr

/-- An HTTP response: a status code and a JSON object body
(association list of key/value pairs, in emission order). -/
structure Response where
  status : Nat
  body : List (String × Json)
deriving DecidableEq, Repr

/-- The filesystem state: files with their contents, and directories.
Writing a file prepends (newest entry shadows older ones). -/
structure Fs where
  files : List (FPath × Bytes)
  dirs : List FPath
deriving DecidableEq, Repr

/-- Look up the contents of the file at path `p` (first match wins). -/
def Fs.readF : List (FPath × Bytes) → FPath → Option Bytes
  | [], _ => none
  | e :: rest, p => if e.1 = p then some e.2 else Fs.readF rest p

/-- Embeds `p.is_file()`: a regular file exists at `p`. -/
def Fs.isFile (fs : Fs) (p : FPath) : Bool :=
  (Fs.readF fs.files p).isSome

/-- A directory exists at `p`. -/
def Fs.isDir (fs : Fs) (p : FPath) : Bool :=
  fs.dirs.any (fun q => decide (q = p))

/-- Embeds `p.exists()`: a file or directory exists at `p`. -/
def Fs.pathExists (fs : Fs) (p : FPath) : Bool :=
  fs.isFile p || fs.isDir p

/-- Write (create or overwrite) the file at `p` with contents `b`. -/
def Fs.writeFile (fs : Fs) (p : FPath) (b : Bytes) : Fs :=
  { fs with files := (p, b) :: fs.files }

/-- Tests whether path `d` starts with all of the components of `c`
(`c` is an ancestor-or-self of `d`). -/
def pfx : FPath → FPath → Bool
  | [], _ => true
  | _ :: _, [] => false
  | a :: as, b :: bs => decide (a = b) && pfx as bs

/-- The nonempty initial segments of a path, shortest first:
`pathInits ["a","b"] = [["a"], ["a","b"]]`. -/
def pathInits : FPath → List FPath
  | [] => []
  | c :: rest => [c] :: (pathInits rest).map (fun q => c :: q)

/-- Embeds `Path.mkdir(parents=True, exist_ok=True)`: create `p` and any missing
ancestors; files are untouched. -/
def Fs.mkdirp (fs : Fs) (p : FPath) : Fs :=
  { fs with
    dirs := fs.dirs ++ (pathInits p).filter (fun d => !(fs.dirs.any (fun q => decide (q = d)))) }

/-- Embeds `shutil.rmtree(p, ignore_errors=True)`: remove `p` and everything
below it, silently succeeding even if `p` is absent. -/
def Fs.rmtree (fs : Fs) (p : FPath) : Fs :=
  { files := fs.files.filter (fun e => !(pfx p e.1)),
    dirs := fs.dirs.filter (fun q => !(pfx p q)) }

/-- Embeds `shutil.copy2(src, dst)`: read `src` and write its bytes to `dst`;
raises (here: returns `.error`) if `src` is not a readable file. -/
def Fs.copy2 (fs : Fs) (src dst : FPath) : Except String Fs :=
  match Fs.readF fs.files src with
  | none => .error ("FileNotFoundError: " ++ String.intercalate "/" src)
  | some b => .ok (fs.writeFile dst b)

/-- The subdirectories of `d` (`[p for p in d.iterdir() if p.is_dir()]`):
directories exactly one component below `d`, in filesystem listing
order (implementation-defined, here the order of `fs.dirs`). -/
def Fs.subdirs (fs : Fs) (d : FPath) : List FPath :=
  fs.dirs.filter (fun q => decide (q.length = d.length + 1) && pfx d q)

/-- Render a path the way `str(FPath)` does inside the subprocess command
line (relative to `BASE_DIR` in this embedding). -/
def pathStr (p : FPath) : String := String.intercalate "/" p

/-- Helper for `os.path.splitext`: the suffix of `cs` starting at its last dot, or
`[]` when `cs` has no dot. -/
def extFrom : List Char → List Char
  | [] => []
  | c :: rest =>
    let e := extFrom rest
    if e = [] then (if c = '.' then c :: rest else []) else e

/-- The extension part of `os.path.splitext(s)`: the portion of the last
path component from its last dot on, where leading dots of the component
do not start an extension (`".bashrc"` has no extension). -/
def splitextExt (s : String) : String :=
  let base := (s.data.reverse.takeWhile (fun c => c ≠ '/')).reverse
  let rest := base.dropWhile (fun c => c = '.')
  String.mk (extFrom rest)

/-- Embeds `str.lower()` as applied to the extension: character-wise
lowercasing (ASCII letters are all that occur in extensions). -/
def strLower (s : String) : String := String.mk (s.data.map Char.toLower)

/-- The upload allow-list from `upload`:
`[".mp3", ".wav", ".m4a", ".flac", ".ogg", ".aac"]`. -/
def allowedExts : List String := [".mp3", ".wav", ".m4a", ".flac", ".ogg", ".aac"]

/-- Everything outside the program that one `POST /api/upload` request can
observe: the job id drawn from `uuid4().hex`, and the behaviour of the two
external subprocesses. -/
structure UploadEnv where
  /-- The value of `uuid.uuid4().hex` for this request. -/
  uid : String
  /-- The value of `sys.executable`, used only in the diagnostic command line. -/
  pyExe : String
  /-- Exit code of the demucs subprocess. -/
  demucsExit : Int
  /-- Captured stdout of the demucs subprocess. -/
  demucsStdout : String
  /-- Captured stderr of the demucs subprocess. -/
  demucsStderr : String
  /-- Directories the demucs subprocess creates, relative to its `-o`
  output directory. -/
  demucsDirs : List FPath
  /-- Files the demucs subprocess writes, relative to its `-o` output
  directory. -/
  demucsWrites : List (FPath × Bytes)
  /-- Whether launching `ffmpeg` succeeds (`False` models the
  `FileNotFoundError` branch of `_ffmpeg_exists`). -/
  ffmpegFound : Bool
  /-- Exit code of the `ffmpeg` mixing invocation. -/
  mixExit : Int
  /-- Bytes ffmpeg writes to the mix output file when it exits zero. -/
  mixOutput : Bytes
deriving DecidableEq, Repr

/-- Embeds the ffmpeg probe: it runs `ffmpeg -version` with `check=False` and
reports `True` unless launching the binary raises `FileNotFoundError`;
the exit code of the probe is ignored. -/
def ffmpeg_exists (found : Bool) : Bool := found

/-- Apply the separation tool's filesystem effect: its directories and
file writes, all under the `-o` directory `outDir`. -/
def applyDemucsFx (env : UploadEnv) (outDir : FPath) (fs : Fs) : Fs :=
  let fs1 := env.demucsDirs.foldl (fun a d => a.mkdirp (outDir ++ d)) fs
  env.demucsWrites.foldl (fun a e => a.writeFile (outDir ++ e.1) e.2) fs1

/-- The demucs command line built in `run_demucs`. -/
def demucsCmd (env : UploadEnv) (inputPath outDir : FPath) : List String :=
  [env.pyExe, "-m", "demucs", "-n", "htdemucs", "-o", pathStr outDir, pathStr inputPath]

/-- Embeds `run_demucs(input_path, out_dir)`: run the separation tool, fail on a
non-zero exit (with the command line and captured streams in the
message), then locate `out_dir/htdemucs/<first subdirectory>`. -/
def run_demucs (env : UploadEnv) (inputPath outDir : FPath) (fs : Fs) :
    Fs × Except String FPath :=
  let fs1 := applyDemucsFx env outDir fs
  if env.demucsExit ≠ 0 then
    (fs1, .error ("Demucs failed.\n\nCommand: "
      ++ String.intercalate " " (demucsCmd env inputPath outDir)
      ++ "\n\nSTDOUT:\n" ++ env.demucsStdout
      ++ "\n\nSTDERR:\n" ++ env.demucsStderr))
  else
    let modelDir := outDir ++ ["htdemucs"]
    if !(fs1.pathExists modelDir) then
      (fs1, .error "Demucs output not found.")
    else
      match fs1.subdirs modelDir with
      | [] => (fs1, .error "Demucs didn't produce a track folder.")
      | c :: _ => (fs1, .ok c)

/-- Embeds `make_instrumental(drums, bass, other, instrumental_out)`: when ffmpeg
is reachable and its 3-input `amix` invocation exits zero, the mix output
is whatever ffmpeg wrote; otherwise fall back to `shutil.copy2(other,
instrumental_out)`. -/
def make_instrumental (env : UploadEnv) (drums bass other instrumental_out : FPath)
    (fs : Fs) : Except String Fs :=
  if ffmpeg_exists env.ffmpegFound then
    if env.mixExit ≠ 0 then
      fs.copy2 other instrumental_out
    else
      .ok (fs.writeFile instrumental_out env.mixOutput)
  else
    fs.copy2 other instrumental_out

/-- The stem names checked by the upload handler, in its loop order
`[vocals, drums, bass, other]`. -/
def stemNames : List String := ["vocals.wav", "drums.wav", "bass.wav", "other.wav"]

/-- The first stem of `stemNames` with no filesystem entry under `d`
(the handler's loop raises on the first `p` with `not p.exists()`). -/
def firstMissingStem (fs : Fs) (d : FPath) : Option String :=
  stemNames.find? (fun n => !(fs.pathExists (d ++ [n])))

/-- One uploaded multipart file: its client-supplied name and bytes. -/
structure UploadFile where
  filename : String
  content : Bytes
deriving DecidableEq, Repr

/-- The `try:` block of the upload handler, from `run_demucs` to the
response dict; returns the filesystem at the point of success or
exception, and either the response body or the exception message. -/
def uploadTry (env : UploadEnv) (uid ext : String) (inputPath jobDir : FPath)
    (fs : Fs) : Fs × Except String (List (String × Json)) :=
  match run_demucs env inputPath jobDir fs with
  | (fsA, .error e) => (fsA, .error e)
  | (fsA, .ok outSubdir) =>
    match firstMissingStem fsA outSubdir with
    | some nm => (fsA, .error ("Missing expected stem: " ++ nm))
    | none =>
      match make_instrumental env (outSubdir ++ ["drums.wav"]) (outSubdir ++ ["bass.wav"])
          (outSubdir ++ ["other.wav"]) (outSubdir ++ ["instrumental.wav"]) fsA with
      | .error e => (fsA, .error e)
      | .ok fsB =>
        match fsB.copy2 inputPath (jobDir ++ ["original" ++ ext]) with
        | .error e => (fsB, .error e)
        | .ok fsC =>
          let rel := outSubdir.drop 1
          let base := "/outputs/" ++ String.intercalate "/" rel
          (fsC, .ok [("id", Json.str uid),
                     ("original", Json.str ("/outputs/" ++ uid ++ "/original" ++ ext)),
                     ("vocals", Json.str (base ++ "/vocals.wav")),
                     ("instrumental", Json.str (base ++ "/instrumental.wav")),
                     ("drums", Json.str (base ++ "/drums.wav")),
                     ("bass", Json.str (base ++ "/bass.wav")),
                     ("other", Json.str (base ++ "/other.wav"))])

/-- The `except Exception` handler of `upload`: on success pass the body
through with status 200; on exception remove the job directory
(`shutil.rmtree(job_dir, ignore_errors=True)`) and answer 500. -/
def finishUpload (jobDir : FPath) : Fs × Except String (List (String × Json)) → Fs × Response
  | (fsE, .ok body) => (fsE, ⟨200, body⟩)
  | (fsE, .error e) => (fsE.rmtree jobDir, ⟨500, [("detail", Json.str e)]⟩)

/-- Embeds `POST /api/upload`: validate the file and its extension, persist the
upload as `uploads/<uid><ext>`, create `outputs/<uid>`, then run the
separation/mix/verify/copy pipeline under the exception handler. -/
def upload (env : UploadEnv) (fs : Fs) (file : Option UploadFile) : Fs × Response :=
  match file with
  | none => (fs, ⟨400, [("detail", Json.str "No file uploaded.")]⟩)
  | some f =>
    if f.filename = "" then
      (fs, ⟨400, [("detail", Json.str "No file uploaded.")]⟩)
    else
      let ext := strLower (splitextExt f.filename)
      if !(allowedExts.contains ext) then
        (fs, ⟨400, [("detail", Json.str "Unsupported file format.")]⟩)
      else
        let uid := env.uid
        let inputPath : FPath := ["uploads", uid ++ ext]
        let fs1 := fs.writeFile inputPath f.content
        let jobDir : FPath := ["outputs", uid]
        let fs2 := fs1.mkdirp jobDir
        finishUpload jobDir (uploadTry env uid ext inputPath jobDir fs2)

/-- The world as seen by one `GET /api/health` request. -/
structure HealthEnv where
  /-- Whether launching `python -m demucs -h` raises (any `Exception`). -/
  demucsRaises : Bool
  /-- Exit code of `python -m demucs -h` when it does run. -/
  demucsHelpExit : Int
  /-- Whether launching `ffmpeg -version` succeeds (no
  `FileNotFoundError`). -/
  ffmpegFound : Bool
  /-- Exit code of `ffmpeg -version` when the binary is found; the
  handler never reads it. -/
  ffmpegVersionExit : Int
deriving DecidableEq, Repr

/-- Embeds `GET /api/health`: probe both tools and always answer 200. -/
def health (env : HealthEnv) : Response :=
  let demucs_ok := !env.demucsRaises && decide (env.demucsHelpExit = 0)
  let ffmpeg_ok := ffmpeg_exists env.ffmpegFound
  ⟨200, [("status", Json.str "ok"), ("demucs", Json.bool demucs_ok),
         ("ffmpeg", Json.bool ffmpeg_ok)]⟩

/-- Result of `GET /outputs/<path>`: either a 404 JSON response or the
file served by `send_from_directory(directory, filename)`. -/
inductive ServeResult where
  | notFound (resp : Response) : ServeResult
  | file (directory : FPath) (filename : String) (content : Bytes) : ServeResult
deriving DecidableEq, Repr

/-- Embeds `GET /outputs/<subpath>`: naively join `OUTPUTS / subpath` (no
canonicalization of the components), 404 unless a regular file exists
there, else serve it from its split directory/filename. -/
def outputs_serve (fs : Fs) (subpath : List String) : ServeResult :=
  let full : FPath := "outputs" :: subpath
  if !(fs.pathExists full) || !(fs.isFile full) then
    .notFound ⟨404, [("detail", Json.str "File not found.")]⟩
  else
    .file full.dropLast (full.getLastD "") ((Fs.readF fs.files full).getD [])

/-! ### Basic filesystem lemmas -/

theorem readF_writeFile_self (fs : Fs) (p : FPath) (b : Bytes) :
    Fs.readF (fs.writeFile p b).files p = some b := by
  simp [Fs.writeFile, Fs.readF]

theorem readF_writeFile_ne (fs : Fs) (p q : FPath) (b : Bytes) (h : q ≠ p) :
    Fs.readF (fs.writeFile q b).files p = Fs.readF fs.files p := by
  simp [Fs.writeFile, Fs.readF, h]

theorem mkdirp_files (fs : Fs) (p : FPath) : (fs.mkdirp p).files = fs.files := rfl

theorem pfx_iff (a b : FPath) : pfx a b = true ↔ ∃ s, b = a ++ s := by
  induction a generalizing b with
  | nil => simp [pfx]
  | cons x xs ih =>
    cases b with
    | nil =>
      simp only [pfx, Bool.false_eq_true, false_iff]
      rintro ⟨s, hs⟩
      simp at hs
    | cons y ys =>
      simp only [pfx, Bool.and_eq_true, decide_eq_true_eq, ih]
      constructor
      · rintro ⟨rfl, s, rfl⟩
        exact ⟨s, rfl⟩
      · rintro ⟨s, hs⟩
        rw [List.cons_append] at hs
        cases hs
        exact ⟨rfl, s, rfl⟩

theorem pfx_append (d r : FPath) : pfx d (d ++ r) = true :=
  (pfx_iff d (d ++ r)).2 ⟨r, rfl⟩

theorem pfx_trans {a b c : FPath} (h1 : pfx a b = true) (h2 : pfx b c = true) :
    pfx a c = true := by
  rcases (pfx_iff _ _).1 h1 with ⟨s, rfl⟩
  rcases (pfx_iff _ _).1 h2 with ⟨t, rfl⟩
  exact (pfx_iff _ _).2 ⟨s ++ t, List.append_assoc _ _ _⟩

theorem ne_of_pfx_of_not_pfx {d p q : FPath} (hq : pfx d q = true)
    (hp : pfx d p = false) : p ≠ q := by
  intro h
  rw [h, hq] at hp
  exact Bool.true_eq_false.mp hp

theorem readF_filter_of_pfx (l : List (FPath × Bytes)) (d p : FPath)
    (h : pfx d p = true) :
    Fs.readF (l.filter (fun e => !(pfx d e.1))) p = none := by
  induction l with
  | nil => simp [Fs.readF]
  | cons e rest ih =>
    by_cases he : e.1 = p
    · simp [List.filter, he, h, Fs.readF, ih]
    · by_cases hd : pfx d e.1 <;> simp [List.filter, hd, Fs.readF, he, ih]

theorem readF_filter_of_not_pfx (l : List (FPath × Bytes)) (d p : FPath)
    (h : pfx d p = false) :
    Fs.readF (l.filter (fun e => !(pfx d e.1))) p = Fs.readF l p := by
  induction l with
  | nil => simp
  | cons e rest ih =>
    by_cases he : e.1 = p
    · subst he
      simp [List.filter, h, Fs.readF, ih]
    · by_cases hd : pfx d e.1 <;> simp [List.filter, hd, Fs.readF, he, ih]

theorem rmtree_readF_of_pfx (fs : Fs) (d p : FPath) (h : pfx d p = true) :
    Fs.readF (fs.rmtree d).files p = none :=
  readF_filter_of_pfx fs.files d p h

theorem rmtree_readF_of_not_pfx (fs : Fs) (d p : FPath) (h : pfx d p = false) :
    Fs.readF (fs.rmtree d).files p = Fs.readF fs.files p :=
  readF_filter_of_not_pfx fs.files d p h

theorem any_filter_eq_self_false (l : List FPath) (d p : FPath) (h : pfx d p = true) :
    ((l.filter (fun q => !(pfx d q))).any (fun q => decide (q = p))) = false := by
  induction l with
  | nil => simp
  | cons q rest ih =>
    by_cases hq : pfx d q = true
    · simp [List.filter, hq, ih]
    · have hne : q ≠ p := by
        intro he
        rw [he, h] at hq
        exact hq rfl
      simp [List.filter, hq, hne, ih]

theorem rmtree_pathExists_of_pfx (fs : Fs) (d p : FPath) (h : pfx d p = true) :
    (fs.rmtree d).pathExists p = false := by
  have hf : Fs.readF (fs.rmtree d).files p = none := rmtree_readF_of_pfx fs d p h
  have hd := any_filter_eq_self_false fs.dirs d p h
  simp only [Fs.rmtree] at hf
  simp only [Fs.pathExists, Fs.isFile, Fs.isDir, Fs.rmtree, hf, hd,
    Option.isSome_none, Bool.or_self]

/-! ### Frame lemmas for the upload pipeline -/

theorem foldl_mkdirp_files (l : List FPath) (outDir : FPath) (fs : Fs) :
    (l.foldl (fun a d => a.mkdirp (outDir ++ d)) fs).files = fs.files := by
  induction l generalizing fs with
  | nil => rfl
  | cons d rest ih => rw [List.foldl, ih, mkdirp_files]

theorem foldl_writeFile_readF (l : List (FPath × Bytes)) (outDir : FPath) (fs : Fs)
    (p : FPath) (h : pfx outDir p = false) :
    Fs.readF ((l.foldl (fun a e => a.writeFile (outDir ++ e.1) e.2) fs)).files p =
      Fs.readF fs.files p := by
  induction l generalizing fs with
  | nil => rfl
  | cons e rest ih =>
    rw [List.foldl, ih]
    exact readF_writeFile_ne fs p (outDir ++ e.1) e.2
      (ne_of_pfx_of_not_pfx (pfx_append outDir e.1) h).symm

theorem applyDemucsFx_readF (env : UploadEnv) (outDir : FPath) (fs : Fs) (p : FPath)
    (h : pfx outDir p = false) :
    Fs.readF (applyDemucsFx env outDir fs).files p = Fs.readF fs.files p := by
  unfold applyDemucsFx
  rw [foldl_writeFile_readF _ _ _ _ h, foldl_mkdirp_files]

theorem run_demucs_fst (env : UploadEnv) (ip od : FPath) (fs : Fs) :
    (run_demucs env ip od fs).1 = applyDemucsFx env od fs := by
  unfold run_demucs
  dsimp only
  split
  · rfl
  · split
    · rfl
    · split <;> rfl

theorem mem_subdirs_pfx {fs : Fs} {d c : FPath} (h : c ∈ fs.subdirs d) :
    pfx d c = true := by
  simp only [Fs.subdirs, List.mem_filter, Bool.and_eq_true, decide_eq_true_eq] at h
  exact h.2.2

theorem run_demucs_ok {env : UploadEnv} {ip od : FPath} {fs fsA : Fs} {c : FPath}
    (h : run_demucs env ip od fs = (fsA, .ok c)) :
    fsA = applyDemucsFx env od fs ∧ pfx od c = true := by
  unfold run_demucs at h
  dsimp only at h
  split at h
  · simp at h
  · split at h
    · simp at h
    · split at h
      · simp at h
      · rename_i x rest heq
        rw [Prod.mk.injEq] at h
        obtain ⟨h1, h2⟩ := h
        rw [Except.ok.injEq] at h2
        refine ⟨h1.symm, ?_⟩
        have hmem : x ∈ (applyDemucsFx env od fs).subdirs (od ++ ["htdemucs"]) := by
          rw [heq]
          exact List.mem_cons_self _ _
        rw [← h2]
        exact pfx_trans (pfx_append od ["htdemucs"]) (mem_subdirs_pfx hmem)

theorem copy2_ok_readF {fs fs' : Fs} {src dst : FPath} (h : fs.copy2 src dst = .ok fs')
    (p : FPath) (hne : p ≠ dst) :
    Fs.readF fs'.files p = Fs.readF fs.files p := by
  unfold Fs.copy2 at h
  cases hro : Fs.readF fs.files src with
  | none => rw [hro] at h; simp at h
  | some bb =>
    rw [hro] at h
    rw [Except.ok.injEq] at h
    subst h
    exact readF_writeFile_ne fs p dst bb (Ne.symm hne)

theorem make_instrumental_ok_readF {env : UploadEnv} {d b o out : FPath} {fs fs' : Fs}
    (h : make_instrumental env d b o out fs = .ok fs') (p : FPath) (hne : p ≠ out) :
    Fs.readF fs'.files p = Fs.readF fs.files p := by
  unfold make_instrumental at h
  split at h
  · split at h
    · exact copy2_ok_readF h p hne
    · rw [Except.ok.injEq] at h
      subst h
      exact readF_writeFile_ne fs p out env.mixOutput (Ne.symm hne)
  · exact copy2_ok_readF h p hne

theorem uploadTry_readF (env : UploadEnv) (uid ext : String) (ip jobDir : FPath)
    (fs : Fs) (p : FPath) (h : pfx jobDir p = false) :
    Fs.readF ((uploadTry env uid ext ip jobDir fs).1).files p = Fs.readF fs.files p := by
  unfold uploadTry
  rcases hr : run_demucs env ip jobDir fs with ⟨fsA, r⟩
  have hA : fsA = applyDemucsFx env jobDir fs := by
    have hfst := run_demucs_fst env ip jobDir fs
    rw [hr] at hfst
    exact hfst
  have hframeA : Fs.readF fsA.files p = Fs.readF fs.files p := by
    rw [hA]
    exact applyDemucsFx_readF env jobDir fs p h
  cases r with
  | error e => simpa using hframeA
  | ok c =>
    have hc : pfx jobDir c = true := (run_demucs_ok hr).2
    cases hm : firstMissingStem fsA c with
    | some nm => simpa [hm] using hframeA
    | none =>
      cases hmi : make_instrumental env (c ++ ["drums.wav"]) (c ++ ["bass.wav"])
          (c ++ ["other.wav"]) (c ++ ["instrumental.wav"]) fsA with
      | error e => simpa [hm, hmi] using hframeA
      | ok fsB =>
        have hpne : p ≠ c ++ ["instrumental.wav"] :=
          ne_of_pfx_of_not_pfx (pfx_trans hc (pfx_append c _)) h
        have hframeB : Fs.readF fsB.files p = Fs.readF fs.files p := by
          rw [make_instrumental_ok_readF hmi p hpne]
          exact hframeA
        cases hcp : fsB.copy2 ip (jobDir ++ ["original" ++ ext]) with
        | error e => simpa [hm, hmi, hcp] using hframeB
        | ok fsC =>
          have hpne2 : p ≠ jobDir ++ ["original" ++ ext] :=
            ne_of_pfx_of_not_pfx (pfx_append _ _) h
          have hfr : Fs.readF fsC.files p = Fs.readF fsB.files p :=
            copy2_ok_readF hcp p hpne2
          simp only [hm, hmi, hcp]
          rw [hfr]
          exact hframeB

theorem upload_eq_finish (env : UploadEnv) (fs : Fs) (f : UploadFile)
    (h1 : ¬ (f.filename = ""))
    (h2 : allowedExts.contains (strLower (splitextExt f.filename)) = true) :
    upload env fs (some f) =
      finishUpload ["outputs", env.uid]
        (uploadTry env env.uid (strLower (splitextExt f.filename))
          ["uploads", env.uid ++ strLower (splitextExt f.filename)]
          ["outputs", env.uid]
          ((fs.writeFile ["uploads", env.uid ++ strLower (splitextExt f.filename)]
              f.content).mkdirp ["outputs", env.uid])) := by
  unfold upload
  simp [h1, h2]
  intro hmem
  exact absurd (List.elem_iff.mp h2) hmem

theorem pfx_refl (d : FPath) : pfx d d = true := by
  simpa using pfx_append d []

theorem outputs_not_pfx_uploads (u x : String) :
    pfx ["outputs", u] ["uploads", x] = false := by
  have h : ("outputs" : String) ≠ "uploads" := by decide
  simp [pfx, h]

theorem outputs_not_pfx_of_uploads {u : String} {p : FPath}
    (hp : pfx ["uploads"] p = true) : pfx ["outputs", u] p = false := by
  rcases (pfx_iff _ _).1 hp with ⟨s, rfl⟩
  have h : ("outputs" : String) ≠ "uploads" := by decide
  simp [pfx, h]

theorem contains_false_not_mem {l : List String} {x : String}
    (h : l.contains x = false) : x ∉ l := by
  intro hm
  have hne : ¬ (l.contains x = true) := by
    rw [h]
    exact Bool.false_ne_true
  exact hne (List.elem_iff.mpr hm)

theorem finishUpload_status (jobDir : FPath)
    (x : Fs × Except String (List (String × Json))) :
    (finishUpload jobDir x).2.status = 200 ∨ (finishUpload jobDir x).2.status = 500 := by
  rcases x with ⟨fsE, r⟩
  cases r <;> simp [finishUpload]

theorem finishUpload_readF (jobDir : FPath)
    (x : Fs × Except String (List (String × Json))) (p : FPath)
    (hp : pfx jobDir p = false) :
    Fs.readF ((finishUpload jobDir x).1).files p = Fs.readF x.1.files p := by
  rcases x with ⟨fsE, r⟩
  cases r with
  | error e => simp [finishUpload, rmtree_readF_of_not_pfx _ _ _ hp]
  | ok body => simp [finishUpload]

/-- C9: a non-empty filename with no extension (`os.path.splitext` gives
`""`) is rejected with 400 `"Unsupported file format."` — the same
rejection as for a disallowed extension, not `"No file uploaded."` — and
the filesystem is left untouched. -/
theorem upload_no_extension_rejected (env : UploadEnv) (fs : Fs) (f : UploadFile)
    (h1 : ¬ (f.filename = "")) (h2 : splitextExt f.filename = "") :
    upload env fs (some f) =
      (fs, ⟨400, [("detail", Json.str "Unsupported file format.")]⟩) := by
  unfold upload
  have hlow : strLower (splitextExt f.filename) = "" := by rw [h2]; decide
  have hc : allowedExts.contains "" = false := by decide
  simp [h1, hlow, hc]
  intro hmem
  exact absurd hmem (contains_false_not_mem hc)

theorem upload_no_extension_rejected_witness :
    upload ⟨"w9", "python", 0, "", "", [], [], false, 0, []⟩ ⟨[], []⟩
        (some ⟨"noext", [1]⟩) =
      (⟨[], []⟩, ⟨400, [("detail", Json.str "Unsupported file format.")]⟩) :=
  upload_no_extension_rejected _ _ _ (by decide) (by decide)

/-- C4: an upload whose filename has an allow-listed extension (in any
letter case) is accepted — never answered 400, and the file is persisted
to `uploads/<uid><ext>` — while any other extension on a non-empty
filename is answered 400 `"Unsupported file format."` with no filesystem
change at all. -/
theorem upload_extension_allowlist (env : UploadEnv) (fs : Fs) (f : UploadFile)
    (h1 : ¬ (f.filename = "")) :
    (allowedExts.contains (strLower (splitextExt f.filename)) = true →
      ¬ ((upload env fs (some f)).2.status = 400) ∧
      Fs.readF ((upload env fs (some f)).1).files
        ["uploads", env.uid ++ strLower (splitextExt f.filename)] = some f.content) ∧
    (allowedExts.contains (strLower (splitextExt f.filename)) = false →
      upload env fs (some f) =
        (fs, ⟨400, [("detail", Json.str "Unsupported file format.")]⟩)) := by
  constructor
  · intro hallow
    rw [upload_eq_finish env fs f h1 hallow]
    constructor
    · rcases finishUpload_status ["outputs", env.uid]
          (uploadTry env env.uid (strLower (splitextExt f.filename))
            ["uploads", env.uid ++ strLower (splitextExt f.filename)]
            ["outputs", env.uid]
            ((fs.writeFile ["uploads", env.uid ++ strLower (splitextExt f.filename)]
                f.content).mkdirp ["outputs", env.uid])) with h | h <;>
        simp [h]
    · rw [finishUpload_readF _ _ _ (outputs_not_pfx_uploads _ _)]
      rw [uploadTry_readF _ _ _ _ _ _ _ (outputs_not_pfx_uploads _ _)]
      rw [mkdirp_files]
      exact readF_writeFile_self _ _ _
  · intro hno
    unfold upload
    simp [h1, hno]
    intro hmem
    exact absurd hmem (contains_false_not_mem hno)

theorem upload_extension_allowlist_witness :
    (¬ ((upload ⟨"w4", "python", 1, "", "", [], [], false, 0, []⟩ ⟨[], []⟩
          (some ⟨"track.FLAC", [5]⟩)).2.status = 400) ∧
      Fs.readF ((upload ⟨"w4", "python", 1, "", "", [], [], false, 0, []⟩ ⟨[], []⟩
          (some ⟨"track.FLAC", [5]⟩)).1).files
        ["uploads", "w4" ++ strLower (splitextExt "track.FLAC")] = some [5]) ∧
    (upload ⟨"w4", "python", 1, "", "", [], [], false, 0, []⟩ ⟨[], []⟩
        (some ⟨"clip.xyz", [5]⟩) =
      (⟨[], []⟩, ⟨400, [("detail", Json.str "Unsupported file format.")]⟩)) :=
  ⟨(upload_extension_allowlist _ _ _ (by decide)).1 (by decide),
   (upload_extension_allowlist _ _ _ (by decide)).2 (by decide)⟩

/-- C8: `GET /outputs/<subpath>` answers 404 `{"detail": "File not
found."}` whenever no regular file sits at the naive join
`outputs/<subpath>`, and otherwise serves exactly the file at that literal
joined path — path components (including `".."`-like segments) are never
canonicalized or rejected, only looked up. -/
theorem outputs_serve_spec (fs : Fs) (subpath : List String) :
    (fs.isFile ("outputs" :: subpath) = false →
      outputs_serve fs subpath =
        .notFound ⟨404, [("detail", Json.str "File not found.")]⟩) ∧
    (∀ b, Fs.readF fs.files ("outputs" :: subpath) = some b →
      outputs_serve fs subpath =
        .file (("outputs" :: subpath).dropLast) (("outputs" :: subpath).getLastD "") b) := by
  constructor
  · intro hnf
    unfold outputs_serve
    simp [hnf]
  · intro b hb
    have hif : fs.isFile ("outputs" :: subpath) = true := by
      simp [Fs.isFile, hb]
    have hpe : fs.pathExists ("outputs" :: subpath) = true := by
      simp [Fs.pathExists, hif]
    unfold outputs_serve
    simp [hif, hpe, hb]

theorem outputs_serve_spec_witness :
    (outputs_serve ⟨[], []⟩ ["w8", "missing.wav"] =
      .notFound ⟨404, [("detail", Json.str "File not found.")]⟩) ∧
    (outputs_serve ⟨[(["outputs", "..", "escape.txt"], [9])], []⟩ ["..", "escape.txt"] =
      .file ["outputs", ".."] "escape.txt" [9]) :=
  ⟨(outputs_serve_spec _ _).1 (by decide),
   (outputs_serve_spec _ _).2 [9] (by decide)⟩

/-- Modelled from the spec's words, for comparison with the code (claim
C6): "the mixing tool's version query succeeds" read the same way the
handler reads the separation tool's probe — the probe can be launched and
exits zero. -/
def specFfmpegVersionQueryOk (e : HealthEnv) : Bool :=
  e.ffmpegFound && decide (e.ffmpegVersionExit = 0)

/-- C6 (amended): the health endpoint always answers 200 with
`status = "ok"`; its `demucs` field is true exactly when the help probe
launches and exits zero; its `ffmpeg` field is true exactly when the
`ffmpeg` binary can be launched at all — the exit code of
`ffmpeg -version` is ignored. -/
theorem health_spec (e : HealthEnv) :
    (health e).status = 200 ∧
    ((health e).body.lookup "status" = some (Json.str "ok")) ∧
    ((health e).body.lookup "demucs" = some (Json.bool true) ↔
      (e.demucsRaises = false ∧ e.demucsHelpExit = 0)) ∧
    ((health e).body.lookup "ffmpeg" = some (Json.bool (ffmpeg_exists e.ffmpegFound))) ∧
    ((health e).body.lookup "ffmpeg" = some (Json.bool true) ↔ e.ffmpegFound = true) := by
  refine ⟨rfl, rfl, ?_, rfl, ?_⟩
  · show some (Json.bool (!e.demucsRaises && decide (e.demucsHelpExit = 0))) = _ ↔ _
    constructor
    · intro h
      rw [Option.some.injEq, Json.bool.injEq, Bool.and_eq_true, Bool.not_eq_eq_eq_not,
        Bool.not_true, decide_eq_true_eq] at h
      exact h
    · rintro ⟨h1, h2⟩
      simp [h1, h2]
  · show some (Json.bool (ffmpeg_exists e.ffmpegFound)) = _ ↔ _
    unfold ffmpeg_exists
    constructor
    · intro h
      rw [Option.some.injEq, Json.bool.injEq] at h
      exact h
    · intro h
      rw [h]

/-- C6 counterexample: with `ffmpeg` installed but its `-version` probe
exiting 1 (the probe runs but does not succeed), the health report still
says `"ffmpeg": true` — the handler never inspects that exit code. -/
theorem health_ffmpeg_ignores_exit_cex :
    ((health ⟨false, 0, true, 1⟩).body.lookup "ffmpeg" = some (Json.bool true)) ∧
    specFfmpegVersionQueryOk ⟨false, 0, true, 1⟩ = false := by
  decide

/-- C5: inside any job that reaches the mixing step (so the `other` stem
is a readable file), if `ffmpeg` is not installed or its `amix` invocation
exits non-zero, `make_instrumental` falls back to a byte copy — it returns
successfully (never propagates an error) and the produced instrumental
file's bytes equal the `other` stem's bytes. -/
theorem make_instrumental_fallback (env : UploadEnv) (d b o out : FPath) (fs : Fs)
    (bb : Bytes) (ho : Fs.readF fs.files o = some bb)
    (hf : env.ffmpegFound = false ∨ ¬ (env.mixExit = 0)) :
    make_instrumental env d b o out fs = .ok (fs.writeFile out bb) ∧
    Fs.readF ((fs.writeFile out bb)).files out = Fs.readF fs.files o := by
  constructor
  · unfold make_instrumental ffmpeg_exists
    rcases hf with hf | hf
    · rw [hf]
      simp [Fs.copy2, ho]
    · cases hb : env.ffmpegFound
      · simp [Fs.copy2, ho]
      · simp [hf, Fs.copy2, ho]
  · rw [readF_writeFile_self, ho]

theorem make_instrumental_fallback_witness :
    make_instrumental ⟨"w5", "python", 0, "", "", [], [], false, 1, []⟩
        ["d.wav"] ["b.wav"] ["o.wav"] ["i.wav"] ⟨[(["o.wav"], [4, 2])], []⟩ =
      .ok (Fs.writeFile ⟨[(["o.wav"], [4, 2])], []⟩ ["i.wav"] [4, 2]) ∧
    Fs.readF ((Fs.writeFile ⟨[(["o.wav"], [4, 2])], []⟩ ["i.wav"] [4, 2])).files ["i.wav"] =
      Fs.readF (⟨[(["o.wav"], [4, 2])], []⟩ : Fs).files ["o.wav"] :=
  make_instrumental_fallback _ _ _ _ _ _ [4, 2] (by decide) (Or.inl rfl)

/-- C7: after a zero-exit separation run, `run_demucs` fails when
`outputRoot/htdemucs` is absent, fails when it exists but holds no
subdirectory, and otherwise returns the first subdirectory (in listing
order) as the job's stem location. -/
theorem run_demucs_output_location (env : UploadEnv) (ip od : FPath) (fs : Fs)
    (h0 : env.demucsExit = 0) :
    ((applyDemucsFx env od fs).pathExists (od ++ ["htdemucs"]) = false →
      (run_demucs env ip od fs).2 = .error "Demucs output not found.") ∧
    ((applyDemucsFx env od fs).pathExists (od ++ ["htdemucs"]) = true →
      (applyDemucsFx env od fs).subdirs (od ++ ["htdemucs"]) = [] →
      (run_demucs env ip od fs).2 = .error "Demucs didn't produce a track folder.") ∧
    (∀ c rest, (applyDemucsFx env od fs).pathExists (od ++ ["htdemucs"]) = true →
      (applyDemucsFx env od fs).subdirs (od ++ ["htdemucs"]) = c :: rest →
      (run_demucs env ip od fs).2 = .ok c) := by
  refine ⟨?_, ?_, ?_⟩
  · intro habs
    unfold run_demucs
    simp [h0, habs]
  · intro hex hsub
    unfold run_demucs
    simp [h0, hex, hsub]
  · intro c rest hex hsub
    unfold run_demucs
    simp [h0, hex, hsub]

theorem run_demucs_output_location_witness :
    (run_demucs ⟨"w7", "python", 0, "", "", [], [], false, 0, []⟩ ["uploads", "w7.mp3"]
        ["outputs", "w7"] ⟨[], []⟩).2 = .error "Demucs output not found." ∧
    (run_demucs ⟨"w7", "python", 0, "", "", [["htdemucs"]], [], false, 0, []⟩
        ["uploads", "w7.mp3"] ["outputs", "w7"] ⟨[], []⟩).2 =
      .error "Demucs didn't produce a track folder." ∧
    (run_demucs ⟨"w7", "python", 0, "", "", [["htdemucs"], ["htdemucs", "t"]], [], false, 0, []⟩
        ["uploads", "w7.mp3"] ["outputs", "w7"] ⟨[], []⟩).2 =
      .ok ["outputs", "w7", "htdemucs", "t"] :=
  ⟨(run_demucs_output_location _ _ _ _ rfl).1 (by decide),
   ((run_demucs_output_location _ _ _ _ rfl).2).1 (by decide) (by decide),
   ((run_demucs_output_location _ _ _ _ rfl).2).2 ["outputs", "w7", "htdemucs", "t"] []
     (by decide) (by decide)⟩

theorem uploadTry_ok_body {env : UploadEnv} {uid ext : String} {ip jobDir : FPath}
    {fs fsC : Fs} {body : List (String × Json)}
    (h : uploadTry env uid ext ip jobDir fs = (fsC, .ok body)) :
    ∃ base, body = [("id", Json.str uid),
      ("original", Json.str ("/outputs/" ++ (uid ++ "/original" ++ ext))),
      ("vocals", Json.str ("/outputs/" ++ (base ++ "/vocals.wav"))),
      ("instrumental", Json.str ("/outputs/" ++ (base ++ "/instrumental.wav"))),
      ("drums", Json.str ("/outputs/" ++ (base ++ "/drums.wav"))),
      ("bass", Json.str ("/outputs/" ++ (base ++ "/bass.wav"))),
      ("other", Json.str ("/outputs/" ++ (base ++ "/other.wav")))] := by
  unfold uploadTry at h
  rcases hr : run_demucs env ip jobDir fs with ⟨fsA, r⟩
  rw [hr] at h
  cases r with
  | error e => simp at h
  | ok c =>
    dsimp only at h
    cases hm : firstMissingStem fsA c with
    | some nm => rw [hm] at h; simp at h
    | none =>
      rw [hm] at h
      dsimp only at h
      cases hmi : make_instrumental env (c ++ ["drums.wav"]) (c ++ ["bass.wav"])
          (c ++ ["other.wav"]) (c ++ ["instrumental.wav"]) fsA with
      | error e => rw [hmi] at h; simp at h
      | ok fsB =>
        rw [hmi] at h
        dsimp only at h
        cases hcp : fsB.copy2 ip (jobDir ++ ["original" ++ ext]) with
        | error e => rw [hcp] at h; simp at h
        | ok fsD =>
          rw [hcp] at h
          dsimp only at h
          simp only [Prod.mk.injEq, Except.ok.injEq] at h
          refine ⟨String.intercalate "/" (c.drop 1), ?_⟩
          rw [← h.2]
          simp [String.append_assoc]

/-- C1 (amended): a successful upload's JSON body has exactly the seven
keys `id, original, vocals, instrumental, drums, bass, other`, in that
order; `id` holds the job identifier itself (not a path), and every other
value is a string beginning with `"/outputs/"`. -/
theorem upload_success_response (env : UploadEnv) (fs : Fs) (file : Option UploadFile)
    (h : (upload env fs file).2.status = 200) :
    ((upload env fs file).2.body.map Prod.fst =
      ["id", "original", "vocals", "instrumental", "drums", "bass", "other"]) ∧
    ((upload env fs file).2.body.lookup "id" = some (Json.str env.uid)) ∧
    (∀ k v, (k, v) ∈ (upload env fs file).2.body → ¬ (k = "id") →
      ∃ t, v = Json.str ("/outputs/" ++ t)) := by
  cases file with
  | none => simp [upload] at h
  | some f =>
    by_cases h1 : f.filename = ""
    · simp [upload, h1] at h
    · by_cases h2 : allowedExts.contains (strLower (splitextExt f.filename)) = true
      · rw [upload_eq_finish env fs f h1 h2] at h ⊢
        rcases hT : uploadTry env env.uid (strLower (splitextExt f.filename))
            ["uploads", env.uid ++ strLower (splitextExt f.filename)]
            ["outputs", env.uid]
            ((fs.writeFile ["uploads", env.uid ++ strLower (splitextExt f.filename)]
                f.content).mkdirp ["outputs", env.uid]) with ⟨fsE, r⟩
        cases r with
        | error e =>
          rw [hT] at h
          simp [finishUpload] at h
        | ok body =>
          obtain ⟨base, hbody⟩ := uploadTry_ok_body hT
          simp only [finishUpload, hbody]
          refine ⟨by simp, by simp [List.lookup], ?_⟩
          intro k v hkv hk
          simp only [List.mem_cons, List.not_mem_nil, or_false, Prod.mk.injEq] at hkv
          rcases hkv with ⟨hk1, _⟩ | h' | h' | h' | h' | h' | h' <;>
            first
              | (exact absurd hk1 hk)
              | (exact ⟨_, h'.2⟩)
      · rw [Bool.not_eq_true] at h2
        simp [upload, h1, h2] at h
        have := contains_false_not_mem h2
        simp [this] at h

/-- A concrete successful upload run: demucs exits 0 and writes the four
stems under `htdemucs/song`, ffmpeg is absent (fallback copy). -/
def envC1 : UploadEnv :=
  ⟨"j1", "python", 0, "", "", [["htdemucs"], ["htdemucs", "song"]],
   [(["htdemucs", "song", "vocals.wav"], [1]),
    (["htdemucs", "song", "drums.wav"], [2]),
    (["htdemucs", "song", "bass.wav"], [3]),
    (["htdemucs", "song", "other.wav"], [4])], false, 0, [9]⟩

/-- The uploaded file for the concrete successful run. -/
def fileC1 : UploadFile := ⟨"song.mp3", [7, 7]⟩

/-- C1 counterexample: on a concrete successful upload the body has seven
keys — not six — and the `id` value is the bare job identifier `"j1"`,
which does not begin with `"/outputs/"`. -/
theorem upload_success_response_cex :
    ((upload envC1 ⟨[], []⟩ (some fileC1)).2.status = 200) ∧
    (((upload envC1 ⟨[], []⟩ (some fileC1)).2.body.map Prod.fst).length = 7) ∧
    ((upload envC1 ⟨[], []⟩ (some fileC1)).2.body.lookup "id" = some (Json.str "j1")) ∧
    (¬ ∃ t, "j1" = "/outputs/" ++ t) := by
  refine ⟨by decide, by decide, by decide, ?_⟩
  rintro ⟨t, ht⟩
  have hlen := congrArg String.length ht
  rw [String.length_append] at hlen
  have h2 : ("j1" : String).length = 2 := rfl
  have h9 : ("/outputs/" : String).length = 9 := rfl
  rw [h2, h9] at hlen
  omega

theorem upload_success_response_witness :
    ((upload envC1 ⟨[], []⟩ (some fileC1)).2.body.map Prod.fst =
      ["id", "original", "vocals", "instrumental", "drums", "bass", "other"]) ∧
    ((upload envC1 ⟨[], []⟩ (some fileC1)).2.body.lookup "id" =
      some (Json.str envC1.uid)) :=
  ⟨(upload_success_response envC1 ⟨[], []⟩ (some fileC1) (by decide)).1,
   (upload_success_response envC1 ⟨[], []⟩ (some fileC1) (by decide)).2.1⟩

theorem upload_500_outputs_gone (env : UploadEnv) (fs : Fs) (f : UploadFile)
    (h1 : ¬ (f.filename = ""))
    (h2 : allowedExts.contains (strLower (splitextExt f.filename)) = true)
    (h5 : (upload env fs (some f)).2.status = 500) :
    ∀ p, pfx ["outputs", env.uid] p = true →
      ((upload env fs (some f)).1).pathExists p = false := by
  rw [upload_eq_finish env fs f h1 h2] at h5 ⊢
  rcases hT : uploadTry env env.uid (strLower (splitextExt f.filename))
      ["uploads", env.uid ++ strLower (splitextExt f.filename)]
      ["outputs", env.uid]
      ((fs.writeFile ["uploads", env.uid ++ strLower (splitextExt f.filename)]
          f.content).mkdirp ["outputs", env.uid]) with ⟨fsE, r⟩
  cases r with
  | ok body =>
    rw [hT] at h5
    simp [finishUpload] at h5
  | error e =>
    intro p hp
    simp only [finishUpload]
    exact rmtree_pathExists_of_pfx _ _ _ hp

theorem upload_500_upload_kept (env : UploadEnv) (fs : Fs) (f : UploadFile)
    (h1 : ¬ (f.filename = ""))
    (h2 : allowedExts.contains (strLower (splitextExt f.filename)) = true)
    (h5 : (upload env fs (some f)).2.status = 500) :
    Fs.readF ((upload env fs (some f)).1).files
      ["uploads", env.uid ++ strLower (splitextExt f.filename)] = some f.content := by
  rw [upload_eq_finish env fs f h1 h2] at h5 ⊢
  rcases hT : uploadTry env env.uid (strLower (splitextExt f.filename))
      ["uploads", env.uid ++ strLower (splitextExt f.filename)]
      ["outputs", env.uid]
      ((fs.writeFile ["uploads", env.uid ++ strLower (splitextExt f.filename)]
          f.content).mkdirp ["outputs", env.uid]) with ⟨fsE, r⟩
  cases r with
  | ok body =>
    rw [hT] at h5
    simp [finishUpload] at h5
  | error e =>
    simp only [finishUpload]
    rw [rmtree_readF_of_not_pfx _ _ _ (outputs_not_pfx_uploads _ _)]
    have hfr := uploadTry_readF env env.uid (strLower (splitextExt f.filename))
        ["uploads", env.uid ++ strLower (splitextExt f.filename)]
        ["outputs", env.uid]
        ((fs.writeFile ["uploads", env.uid ++ strLower (splitextExt f.filename)]
            f.content).mkdirp ["outputs", env.uid])
        ["uploads", env.uid ++ strLower (splitextExt f.filename)]
        (outputs_not_pfx_uploads _ _)
    rw [hT] at hfr
    rw [hfr, mkdirp_files]
    exact readF_writeFile_self _ _ _

/-- C2 (amended): when an accepted upload's processing fails (response
500), everything under the job's output directory `outputs/<uid>` is
gone, while the upload persisted to `uploads/<uid><ext>` remains with the
uploaded bytes — the exception handler removes only the output
directory. -/
theorem upload_failure_cleanup (env : UploadEnv) (fs : Fs) (f : UploadFile)
    (h1 : ¬ (f.filename = ""))
    (h2 : allowedExts.contains (strLower (splitextExt f.filename)) = true)
    (h5 : (upload env fs (some f)).2.status = 500) :
    (∀ p, pfx ["outputs", env.uid] p = true →
      ((upload env fs (some f)).1).pathExists p = false) ∧
    (Fs.readF ((upload env fs (some f)).1).files
        ["uploads", env.uid ++ strLower (splitextExt f.filename)] = some f.content) :=
  ⟨upload_500_outputs_gone env fs f h1 h2 h5, upload_500_upload_kept env fs f h1 h2 h5⟩

/-- A concrete failing upload run: the separation tool exits 1. -/
def envC2 : UploadEnv := ⟨"c2", "python", 1, "boom", "trace", [], [], false, 0, []⟩

/-- C2 counterexample: after this concrete failed job the persisted
upload `uploads/c2.mp3` still exists with the uploaded bytes — it is not
deleted, contrary to the claim that every file belonging to the job
(including the persisted upload) is removed. -/
theorem upload_failure_cleanup_cex :
    ((upload envC2 ⟨[], []⟩ (some ⟨"x.mp3", [3]⟩)).2.status = 500) ∧
    (Fs.readF ((upload envC2 ⟨[], []⟩ (some ⟨"x.mp3", [3]⟩)).1).files
        ["uploads", "c2.mp3"] = some [3]) := by
  decide

theorem upload_failure_cleanup_witness :
    (((upload envC2 ⟨[], []⟩ (some ⟨"x.mp3", [3]⟩)).1).pathExists
        ["outputs", "c2"] = false) ∧
    (Fs.readF ((upload envC2 ⟨[], []⟩ (some ⟨"x.mp3", [3]⟩)).1).files
        ["uploads", "c2" ++ strLower (splitextExt "x.mp3")] = some [3]) :=
  ⟨(upload_failure_cleanup envC2 ⟨[], []⟩ ⟨"x.mp3", [3]⟩ (by decide) (by decide)
      (by decide)).1 ["outputs", "c2"] (by decide),
   (upload_failure_cleanup envC2 ⟨[], []⟩ ⟨"x.mp3", [3]⟩ (by decide) (by decide)
      (by decide)).2⟩

/-- C3: when an accepted upload's separation run succeeds but at least one
of the four stem files is missing, the endpoint answers 500 with a detail
naming the first missing stem (in the check order vocals, drums, bass,
other), and nothing under the job's output directory `outputs/<uid>`
exists afterwards. -/
theorem upload_missing_stem (env : UploadEnv) (fs : Fs) (f : UploadFile)
    (h1 : ¬ (f.filename = ""))
    (h2 : allowedExts.contains (strLower (splitextExt f.filename)) = true)
    (fsA : Fs) (c : FPath) (nm : String)
    (hr : run_demucs env ["uploads", env.uid ++ strLower (splitextExt f.filename)]
            ["outputs", env.uid]
            ((fs.writeFile ["uploads", env.uid ++ strLower (splitextExt f.filename)]
                f.content).mkdirp ["outputs", env.uid]) = (fsA, .ok c))
    (hm : firstMissingStem fsA c = some nm) :
    ((upload env fs (some f)).2 =
      ⟨500, [("detail", Json.str ("Missing expected stem: " ++ nm))]⟩) ∧
    (∀ p, pfx ["outputs", env.uid] p = true →
      ((upload env fs (some f)).1).pathExists p = false) := by
  rw [upload_eq_finish env fs f h1 h2]
  have hTry : uploadTry env env.uid (strLower (splitextExt f.filename))
      ["uploads", env.uid ++ strLower (splitextExt f.filename)]
      ["outputs", env.uid]
      ((fs.writeFile ["uploads", env.uid ++ strLower (splitextExt f.filename)]
          f.content).mkdirp ["outputs", env.uid]) =
      (fsA, .error ("Missing expected stem: " ++ nm)) := by
    unfold uploadTry
    rw [hr]
    dsimp only
    rw [hm]
  rw [hTry]
  constructor
  · simp [finishUpload]
  · intro p hp
    simp only [finishUpload]
    exact rmtree_pathExists_of_pfx _ _ _ hp

/-- A concrete run in which demucs exits 0 and creates the track folder
but writes no stem files at all. -/
def envW3 : UploadEnv :=
  ⟨"w3", "python", 0, "", "", [["htdemucs"], ["htdemucs", "t"]], [], false, 0, []⟩

/-- The filesystem `run_demucs` leaves behind in the `envW3` run. -/
def fsW3A : Fs :=
  ⟨[(["uploads", "w3.mp3"], [1])],
   [["outputs"], ["outputs", "w3"], ["outputs", "w3", "htdemucs"],
    ["outputs", "w3", "htdemucs", "t"]]⟩

theorem upload_missing_stem_witness :
    ((upload envW3 ⟨[], []⟩ (some ⟨"a.mp3", [1]⟩)).2 =
      ⟨500, [("detail", Json.str ("Missing expected stem: " ++ "vocals.wav"))]⟩) ∧
    (((upload envW3 ⟨[], []⟩ (some ⟨"a.mp3", [1]⟩)).1).pathExists
        ["outputs", "w3"] = false) :=
  ⟨(upload_missing_stem envW3 ⟨[], []⟩ ⟨"a.mp3", [1]⟩ (by decide) (by decide)
      fsW3A ["outputs", "w3", "htdemucs", "t"] "vocals.wav" rfl (by decide)).1,
   (upload_missing_stem envW3 ⟨[], []⟩ ⟨"a.mp3", [1]⟩ (by decide) (by decide)
      fsW3A ["outputs", "w3", "htdemucs", "t"] "vocals.wav" rfl (by decide)).2
     ["outputs", "w3"] (by decide)⟩

/-- C10: the upload endpoint never deletes or modifies any pre-existing
file under `uploads/` other than (possibly) the slot it writes for the
fresh job id, and after a failed job (response 500) the persisted upload
`uploads/<uid><ext>` still exists with the uploaded bytes — failure
cleanup removes only the job's directory under the outputs root. -/
theorem uploads_dir_frame (env : UploadEnv) (fs : Fs) (f : UploadFile) (p : FPath)
    (hp : pfx ["uploads"] p = true)
    (hne : ¬ (p = ["uploads", env.uid ++ strLower (splitextExt f.filename)])) :
    (Fs.readF ((upload env fs (some f)).1).files p = Fs.readF fs.files p) ∧
    ((upload env fs (some f)).2.status = 500 →
      Fs.readF ((upload env fs (some f)).1).files
        ["uploads", env.uid ++ strLower (splitextExt f.filename)] = some f.content) := by
  constructor
  · by_cases h1 : f.filename = ""
    · simp [upload, h1]
    · by_cases h2 : allowedExts.contains (strLower (splitextExt f.filename)) = true
      · rw [upload_eq_finish env fs f h1 h2]
        rw [finishUpload_readF _ _ _ (outputs_not_pfx_of_uploads hp)]
        rw [uploadTry_readF _ _ _ _ _ _ _ (outputs_not_pfx_of_uploads hp)]
        rw [mkdirp_files]
        exact readF_writeFile_ne _ _ _ _ (fun hh => hne hh.symm)
      · rw [Bool.not_eq_true] at h2
        have hnm := contains_false_not_mem h2
        simp [upload, h1, h2, hnm]
  · intro h5
    by_cases h1 : f.filename = ""
    · simp [upload, h1] at h5
    · by_cases h2 : allowedExts.contains (strLower (splitextExt f.filename)) = true
      · exact upload_500_upload_kept env fs f h1 h2 h5
      · rw [Bool.not_eq_true] at h2
        have hnm := contains_false_not_mem h2
        simp [upload, h1, h2, hnm] at h5

/-- A failing run (`demucs` exits 1) against a filesystem that already
holds an unrelated uploaded file. -/
def envW10 : UploadEnv := ⟨"w10", "python", 1, "", "", [], [], false, 0, []⟩

/-- Starting filesystem for the C10 witness: one pre-existing upload. -/
def fsW10 : Fs := ⟨[(["uploads", "old.wav"], [5])], [["uploads"], ["outputs"]]⟩

theorem uploads_dir_frame_witness :
    (Fs.readF ((upload envW10 fsW10 (some ⟨"b.mp3", [2]⟩)).1).files
        ["uploads", "old.wav"] = Fs.readF fsW10.files ["uploads", "old.wav"]) ∧
    (Fs.readF ((upload envW10 fsW10 (some ⟨"b.mp3", [2]⟩)).1).files
        ["uploads", "w10" ++ strLower (splitextExt "b.mp3")] = some [2]) :=
  ⟨(uploads_dir_frame envW10 fsW10 ⟨"b.mp3", [2]⟩ ["uploads", "old.wav"]
      (by decide) (by decide)).1,
   (uploads_dir_frame envW10 fsW10 ⟨"b.mp3", [2]⟩ ["uploads", "old.wav"]
      (by decide) (by decide)).2 (by decide)⟩
